import Mathlib

/-!
# Verification of the RMS P&L engine and price backfill service

Shallow embedding of `backend/app/services/pnl_service.py` and
`backend/app/services/price_service.py` (plus the parts of the data model in
`backend/app/models/idea.py` and `backend/app/models/price_snapshot.py` that
those services read).

Modelling conventions:
* Python `Decimal` prices and arithmetic are modelled as exact rationals `ℚ`.
* The float-based natural logarithm `Decimal(str(log(float(c)/float(e))))`
  is idealised as `Real.log` of the rational ratio, so log-valued outputs
  live in `ℝ`.
* Python `ValueError`s are modelled as an `Except` error channel.  The
  distinct exception messages used by the source are classified following
  the spec's error taxonomy: the "… must be positive" messages are
  `invalidPrice`, the "Secondary price(s) required …" messages are
  `missingPrice`.
* Python truthiness tests on `Optional[Decimal]` fields (`if not x:` /
  `if x:`) are falsy exactly on `None` and on zero; this is modelled by
  `falsyQOpt` / `truthyQOpt`.
* The SQLAlchemy session is modelled as the list of stored `PriceSnapshot`
  rows; `db.add` appends.  The yfinance provider is modelled as a function
  argument from ticker and date range to a historical series.
* `datetime` values are modelled as a calendar day (`Int`) plus a
  second-of-day (`Nat`); `.date()` projects the day.
-/

namespace RMS

/-- `TradeType` enum from `models/idea.py`. -/
inductive TradeType where
  | long
  | short
  | pair_long_short
deriving DecidableEq, Repr

/-- `PairOrientation` enum from `models/idea.py`. -/
inductive PairOrientation where
  | long_primary_short_secondary
  | short_primary_long_secondary
deriving DecidableEq, Repr

/-- `IdeaStatus` enum from `models/idea.py`. -/
inductive IdeaStatus where
  | draft
  | active
  | scaled_up
  | trimmed
  | closed
  | killed
deriving DecidableEq, Repr

/-- `PriceSource` enum from `models/price_snapshot.py`. -/
inductive PriceSource where
  | yfinance
  | manual
deriving DecidableEq, Repr

/-- A `datetime` value: calendar day plus second-of-day (microseconds are
irrelevant to the modelled code paths). -/
structure DateTimeM where
  day : Int
  tod : Nat
deriving DecidableEq, Repr

/-- Lexicographic `datetime` order used by Python's `sorted` key. -/
def DateTimeM.le (a b : DateTimeM) : Bool :=
  decide (a.day < b.day ∨ (a.day = b.day ∧ a.tod ≤ b.tod))

/-- The `Folder` fields read by the price service (tickers of the legs). -/
structure Folder where
  ticker_primary : String
  ticker_secondary : Option String
deriving DecidableEq, Repr

/-- The `Idea` fields read by the P&L and price services.  Fields of the ORM
model not consulted by the modelled code (title, thesis, targets, …) are
omitted. -/
structure Idea where
  id : String
  folder : Folder
  trade_type : TradeType
  pair_orientation : Option PairOrientation
  status : IdeaStatus
  start_date : Int
  entry_price_primary : ℚ
  entry_price_secondary : Option ℚ
  position_size : ℚ
  exit_price_primary : Option ℚ
  exit_price_secondary : Option ℚ
deriving DecidableEq, Repr

/-- `Idea.is_pair` property. -/
def Idea.is_pair (i : Idea) : Bool :=
  decide (i.trade_type = TradeType.pair_long_short)

/-- `Idea.is_closed` property: status is CLOSED or KILLED. -/
def Idea.is_closed (i : Idea) : Bool :=
  decide (i.status = IdeaStatus.closed ∨ i.status = IdeaStatus.killed)

/-- A `PriceSnapshot` row. -/
structure PriceSnapshot where
  idea_id : String
  timestamp : DateTimeM
  price_primary : ℚ
  price_secondary : Option ℚ
  source : PriceSource
  note : Option String
deriving DecidableEq, Repr

/-- Error taxonomy for the `ValueError`s raised by the services, classified
by their message as in the spec (§7). -/
inductive PnLErr where
  | invalidPrice (msg : String)
  | missingPrice (msg : String)
deriving DecidableEq, Repr

/-- Python truthiness of an `Optional[Decimal]`: `None` and `0` are falsy. -/
def falsyQOpt (o : Option ℚ) : Bool :=
  match o with
  | none => true
  | some q => decide (q = 0)

/-- Python truthiness of an `Optional[Decimal]`, positive form. -/
def truthyQOpt (o : Option ℚ) : Bool :=
  match o with
  | none => false
  | some q => decide (q ≠ 0)

/-- Python truthiness of an `Optional[str]`: `None` and `""` are falsy. -/
def truthyStrOpt (o : Option String) : Bool :=
  match o with
  | none => false
  | some s => decide (s ≠ "")

/-! ## PnL engine (`pnl_service.py`) -/

/-- Internal P&L calculation result (`PnLResult` dataclass). -/
structure PnLResult where
  pnl_percent : ℝ
  pnl_absolute : Option ℝ
  pnl_primary_leg : Option ℝ
  pnl_secondary_leg : Option ℝ
  simple_spread : Option ℝ

/-- `PnLService.calculate_long_pnl`: `(current - entry) / entry`, rejecting
`entry ≤ 0`. -/
def calculate_long_pnl (entry_price current_price : ℚ) : Except PnLErr ℚ :=
  if entry_price ≤ 0 then
    .error (.invalidPrice "Entry price must be positive")
  else
    .ok ((current_price - entry_price) / entry_price)

/-- `PnLService.calculate_short_pnl`: `(entry - current) / entry`, rejecting
`entry ≤ 0`. -/
def calculate_short_pnl (entry_price current_price : ℚ) : Except PnLErr ℚ :=
  if entry_price ≤ 0 then
    .error (.invalidPrice "Entry price must be positive")
  else
    .ok ((entry_price - current_price) / entry_price)

/-- `PnLService.calculate_log_return`: `ln(current/entry)`, rejecting any
price `≤ 0`. -/
noncomputable def calculate_log_return (entry_price current_price : ℚ) :
    Except PnLErr ℝ :=
  if entry_price ≤ 0 ∨ current_price ≤ 0 then
    .error (.invalidPrice "Prices must be positive")
  else
    .ok (Real.log ((current_price : ℝ) / (entry_price : ℝ)))

/-- `PnLService.calculate_pair_pnl_log`: returns
`(spread_pnl, log_return_long, log_return_short, simple_spread)`. -/
noncomputable def calculate_pair_pnl_log
    (entry_price_long current_price_long entry_price_short current_price_short : ℚ) :
    Except PnLErr (ℝ × ℝ × ℝ × ℝ) :=
  if entry_price_long ≤ 0 ∨ entry_price_short ≤ 0 ∨
      current_price_long ≤ 0 ∨ current_price_short ≤ 0 then
    .error (.invalidPrice "All prices must be positive")
  else
    let log_return_long : ℝ :=
      Real.log ((current_price_long : ℝ) / (entry_price_long : ℝ))
    let log_return_short : ℝ :=
      Real.log ((current_price_short : ℝ) / (entry_price_short : ℝ))
    let spread_pnl := log_return_long - log_return_short
    let simple_spread : ℝ :=
      ((current_price_long : ℝ) / (entry_price_long : ℝ)) /
        ((current_price_short : ℝ) / (entry_price_short : ℝ)) - 1
    .ok (spread_pnl, log_return_long, log_return_short, simple_spread)

/-- `PnLService.calculate_idea_pnl`: dispatch on the trade type.  The
Python `if not idea.entry_price_secondary or not current_secondary` guard is
the truthiness test `falsyQOpt`. -/
noncomputable def calculate_idea_pnl (idea : Idea) (current_price_primary : ℚ)
    (current_price_secondary : Option ℚ) : Except PnLErr PnLResult :=
  match idea.trade_type with
  | TradeType.long =>
    (calculate_long_pnl idea.entry_price_primary current_price_primary).map
      fun (pnl_pct : ℚ) =>
        { pnl_percent := (pnl_pct : ℝ)
          pnl_absolute :=
            if idea.position_size ≠ 0 then
              some ((pnl_pct * idea.position_size : ℚ) : ℝ)
            else none
          pnl_primary_leg := none
          pnl_secondary_leg := none
          simple_spread := none }
  | TradeType.short =>
    (calculate_short_pnl idea.entry_price_primary current_price_primary).map
      fun (pnl_pct : ℚ) =>
        { pnl_percent := (pnl_pct : ℝ)
          pnl_absolute :=
            if idea.position_size ≠ 0 then
              some ((pnl_pct * idea.position_size : ℚ) : ℝ)
            else none
          pnl_primary_leg := none
          pnl_secondary_leg := none
          simple_spread := none }
  | TradeType.pair_long_short =>
    if falsyQOpt idea.entry_price_secondary || falsyQOpt current_price_secondary then
      .error (.missingPrice "Secondary prices required for pair trade P&L")
    else
      let e2 := idea.entry_price_secondary.getD 0
      let c2 := current_price_secondary.getD 0
      let legs : ℚ × ℚ × ℚ × ℚ :=
        if idea.pair_orientation = some PairOrientation.long_primary_short_secondary then
          (idea.entry_price_primary, current_price_primary, e2, c2)
        else
          (e2, c2, idea.entry_price_primary, current_price_primary)
      (calculate_pair_pnl_log legs.1 legs.2.1 legs.2.2.1 legs.2.2.2).map
        fun (r : ℝ × ℝ × ℝ × ℝ) =>
          { pnl_percent := r.1
            pnl_absolute :=
              if idea.position_size ≠ 0 then
                some (r.1 * (idea.position_size : ℝ))
              else none
            pnl_primary_leg :=
              some (if idea.pair_orientation =
                  some PairOrientation.long_primary_short_secondary
                then r.2.1 else r.2.2.1)
            pnl_secondary_leg :=
              some (if idea.pair_orientation =
                  some PairOrientation.long_primary_short_secondary
                then r.2.2.1 else r.2.1)
            simple_spread := some r.2.2.2 }


/-- The `PnLResponse` schema fields produced by `get_pnl_response`. -/
structure PnLResponse where
  idea_id : String
  trade_type : TradeType
  is_realized : Bool
  entry_price_primary : ℚ
  entry_price_secondary : Option ℚ
  current_price_primary : ℚ
  current_price_secondary : Option ℚ
  pnl_percent : ℝ
  pnl_absolute : Option ℝ
  pnl_primary_leg : Option ℝ
  pnl_secondary_leg : Option ℝ
  simple_spread : Option ℝ
  price_timestamp : Option DateTimeM

/-- `PnLService.get_pnl_response`.  If the idea is closed and has a truthy
exit price, the current prices are overridden by the stored exit prices
before delegating to `calculate_idea_pnl`. -/
noncomputable def get_pnl_response (idea : Idea) (current_price_primary : ℚ)
    (current_price_secondary : Option ℚ) (price_timestamp : Option DateTimeM) :
    Except PnLErr PnLResponse :=
  let cp : ℚ :=
    if idea.is_closed && truthyQOpt idea.exit_price_primary then
      idea.exit_price_primary.getD current_price_primary
    else current_price_primary
  let cs : Option ℚ :=
    if (idea.is_closed && truthyQOpt idea.exit_price_primary) &&
        truthyQOpt idea.exit_price_secondary then
      idea.exit_price_secondary
    else current_price_secondary
  (calculate_idea_pnl idea cp cs).map fun (result : PnLResult) =>
    { idea_id := idea.id
      trade_type := idea.trade_type
      is_realized := idea.is_closed
      entry_price_primary := idea.entry_price_primary
      entry_price_secondary := idea.entry_price_secondary
      current_price_primary := cp
      current_price_secondary := cs
      pnl_percent := result.pnl_percent
      pnl_absolute := result.pnl_absolute
      pnl_primary_leg := result.pnl_primary_leg
      pnl_secondary_leg := result.pnl_secondary_leg
      simple_spread := result.simple_spread
      price_timestamp := price_timestamp }

/-- A `PnLHistoryPoint` of the history response. -/
structure PnLHistoryPoint where
  timestamp : DateTimeM
  price_primary : ℚ
  price_secondary : Option ℚ
  pnl_percent : ℝ
  pnl_primary_leg : Option ℝ
  pnl_secondary_leg : Option ℝ

/-- The `PnLHistoryResponse` schema. -/
structure PnLHistoryResponse where
  idea_id : String
  trade_type : TradeType
  entry_price_primary : ℚ
  entry_price_secondary : Option ℚ
  history : List PnLHistoryPoint

/-- The body of `get_pnl_history`'s `try`-block for one snapshot: the
computed history point, or `none` when `calculate_idea_pnl` raises. -/
noncomputable def pointOf (idea : Idea) (snapshot : PriceSnapshot) :
    Option PnLHistoryPoint :=
  match calculate_idea_pnl idea snapshot.price_primary snapshot.price_secondary with
  | .ok result =>
    some { timestamp := snapshot.timestamp
           price_primary := snapshot.price_primary
           price_secondary := snapshot.price_secondary
           pnl_percent := result.pnl_percent
           pnl_primary_leg := result.pnl_primary_leg
           pnl_secondary_leg := result.pnl_secondary_leg }
  | .error _ => none

/-- One iteration of `get_pnl_history`'s loop: append the computed point,
or keep the accumulator unchanged when the snapshot is skipped. -/
noncomputable def historyAppendStep (idea : Idea)
    (acc : List PnLHistoryPoint) (s_ : PriceSnapshot) : List PnLHistoryPoint :=
  match pointOf idea s_ with
  | some pt => acc ++ [pt]
  | none => acc

/-- `PnLService.get_pnl_history`: sort the snapshots by timestamp, compute
P&L for each, appending a point on success and skipping the snapshot when a
`ValueError` is raised. -/
noncomputable def get_pnl_history (idea : Idea) (snapshots : List PriceSnapshot) :
    PnLHistoryResponse :=
  let sortedSnapshots :=
    snapshots.mergeSort (fun a b => DateTimeM.le a.timestamp b.timestamp)
  let history := sortedSnapshots.foldl (historyAppendStep idea) []
  { idea_id := idea.id
    trade_type := idea.trade_type
    entry_price_primary := idea.entry_price_primary
    entry_price_secondary := idea.entry_price_secondary
    history := history }

/-! ## Price service (`price_service.py`)

The yfinance provider is modelled by a function
`fetchHist : String → Int → Int → List (Int × ℚ)` standing for
`fetch_historical_prices(ticker, start_date, end_date)`, and the session by
the list of stored snapshot rows. -/

/-- `PriceService.get_existing_snapshot_dates`: the dates (as a set, here a
list queried by membership) that already have snapshots for an idea. -/
def get_existing_snapshot_dates (db : List PriceSnapshot) (idea_id : String) :
    List Int :=
  (db.filter fun s => s.idea_id == idea_id).map fun s => s.timestamp.day

/-- Python `dict` built from an association list (`{d: p for d, p in xs}`,
last binding wins) and queried with `.get`. -/
def dictGet (xs : List (Int × ℚ)) (d : Int) : Option ℚ :=
  xs.foldl (fun acc e => if e.1 = d then some e.2 else acc) none

/-- `datetime.combine(date, datetime.max.time().replace(microsecond=0))`:
end-of-day timestamp (23:59:59) on a date. -/
def endOfDay (d : Int) : DateTimeM := ⟨d, 86399⟩

/-- The snapshot row built by the backfill loop. -/
def mkProviderSnap (idea_id : String) (d : Int) (price_primary : ℚ)
    (price_secondary : Option ℚ) : PriceSnapshot :=
  { idea_id := idea_id
    timestamp := endOfDay d
    price_primary := price_primary
    price_secondary := price_secondary
    source := PriceSource.yfinance
    note := none }

/-- One iteration of the backfill loop: the snapshot created for
`(d, price)`, or `none` when it is skipped (date already covered, or a pair
trade with no secondary price for that exact date). -/
def backfillStep (idea : Idea) (existing_dates : List Int)
    (secondary_prices_map : List (Int × ℚ)) (d : Int) (price : ℚ) :
    Option PriceSnapshot :=
  if d ∈ existing_dates then none
  else if idea.is_pair then
    match dictGet secondary_prices_map d with
    | none => none
    | some ps => some (mkProviderSnap idea.id d price (some ps))
  else some (mkProviderSnap idea.id d price none)

/-- The secondary historical series fetched by the backfill: only fetched
for pair trades whose folder has a truthy secondary ticker. -/
def secondarySeries (fetchHist : String → Int → Int → List (Int × ℚ))
    (idea : Idea) (s e : Int) : List (Int × ℚ) :=
  if idea.is_pair && truthyStrOpt idea.folder.ticker_secondary then
    fetchHist (idea.folder.ticker_secondary.getD "") s e
  else []

/-- The snapshots created by one run of the backfill loop: the loop over the
primary series in order, with per-date skips, is the `filterMap` of
`backfillStep` over the existing-dates set computed from `db`. -/
def backfillCreated (fetchHist : String → Int → Int → List (Int × ℚ))
    (today : Int) (idea : Idea) (start_date end_date : Option Int)
    (db : List PriceSnapshot) : List PriceSnapshot :=
  let s := start_date.getD idea.start_date
  let e := end_date.getD today
  (fetchHist idea.folder.ticker_primary s e).filterMap fun dp =>
    backfillStep idea (get_existing_snapshot_dates db idea.id)
      (secondarySeries fetchHist idea s e) dp.1 dp.2

/-- `PriceService.backfill_prices_idempotent`: returns the number of newly
created snapshots and the updated store (the created snapshots are added to
the session in loop order). -/
def backfill_prices_idempotent (fetchHist : String → Int → Int → List (Int × ℚ))
    (today : Int) (idea : Idea) (start_date end_date : Option Int)
    (db : List PriceSnapshot) : Nat × List PriceSnapshot :=
  let s := start_date.getD idea.start_date
  let e := end_date.getD today
  let primary_prices := fetchHist idea.folder.ticker_primary s e
  if primary_prices.isEmpty then (0, db)
  else
    let created := backfillCreated fetchHist today idea start_date end_date db
    (created.length, db ++ created)

/-- `PriceService.add_manual_snapshot`: reject a pair trade without a
secondary price (`is None`, not truthiness), otherwise persist and return
the snapshot. -/
def add_manual_snapshot (idea : Idea) (timestamp : DateTimeM)
    (price_primary : ℚ) (price_secondary : Option ℚ) (note : Option String)
    (db : List PriceSnapshot) :
    Except PnLErr (PriceSnapshot × List PriceSnapshot) :=
  if idea.is_pair && price_secondary.isNone then
    .error (.missingPrice "Secondary price required for pair trade")
  else
    let snapshot : PriceSnapshot :=
      { idea_id := idea.id
        timestamp := timestamp
        price_primary := price_primary
        price_secondary := price_secondary
        source := PriceSource.manual
        note := note }
    .ok (snapshot, db ++ [snapshot])


/-! ## Sample data used by witnesses and counterexamples -/

/-- A folder with both tickers set. -/
def sampleFolder : Folder := { ticker_primary := "AAA", ticker_secondary := some "BBB" }

/-- An open LONG idea with entry price 100. -/
def sampleLongIdea : Idea :=
  { id := "long-1"
    folder := { ticker_primary := "AAA", ticker_secondary := none }
    trade_type := TradeType.long
    pair_orientation := none
    status := IdeaStatus.active
    start_date := 0
    entry_price_primary := 100
    entry_price_secondary := none
    position_size := 0
    exit_price_primary := none
    exit_price_secondary := none }

/-- An open pair idea, long primary / short secondary, entries 100 and 50. -/
def samplePairIdea : Idea :=
  { id := "pair-1"
    folder := sampleFolder
    trade_type := TradeType.pair_long_short
    pair_orientation := some PairOrientation.long_primary_short_secondary
    status := IdeaStatus.active
    start_date := 0
    entry_price_primary := 100
    entry_price_secondary := some 50
    position_size := 0
    exit_price_primary := none
    exit_price_secondary := none }

/-- A closed LONG idea with exit price 120. -/
def sampleClosedLongIdea : Idea :=
  { sampleLongIdea with
    id := "long-closed-1"
    status := IdeaStatus.closed
    exit_price_primary := some 120 }

/-! ## Shared lemmas -/

/-- The long and short single-position formulas are exact negatives of each
other, error cases included (both reject exactly `entry ≤ 0`, with the same
message). -/
theorem long_pnl_eq_neg_short (e c : ℚ) :
    calculate_long_pnl e c = (calculate_short_pnl e c).map fun q => -q := by
  unfold calculate_long_pnl calculate_short_pnl
  split
  · rfl
  · show Except.ok _ = Except.ok _
    rw [Except.ok.injEq]
    ring

/-! ## Claim theorems -/

/-- C5 (corrected), counterexample to the claim as stated: a non-positive
CURRENT price is not validated by `calculate_long_pnl`; with entry 100 and
current −5 it returns the value `(−5 − 100)/100 = −21/20` instead of raising
`InvalidPriceError`. -/
theorem claim5_counterexample : calculate_long_pnl 100 (-5) = .ok (-21/20) := by
  norm_num [calculate_long_pnl]

/-- C5 (amended): `calculate_long_pnl`/`calculate_short_pnl` raise
`InvalidPriceError` exactly when the ENTRY price is ≤ 0 (the current price
is not validated), while `calculate_log_return` and
`calculate_pair_pnl_log` raise it whenever any of their price arguments is
≤ 0; in particular `calculate_long_pnl 0 100` raises. -/
theorem claim5_nonpositive_price_policy :
    (∀ e c : ℚ, e ≤ 0 →
      calculate_long_pnl e c = .error (.invalidPrice "Entry price must be positive"))
    ∧ (∀ e c : ℚ, e ≤ 0 →
      calculate_short_pnl e c = .error (.invalidPrice "Entry price must be positive"))
    ∧ (∀ e c : ℚ, e ≤ 0 ∨ c ≤ 0 →
      calculate_log_return e c = .error (.invalidPrice "Prices must be positive"))
    ∧ (∀ eL cL eS cS : ℚ, eL ≤ 0 ∨ cL ≤ 0 ∨ eS ≤ 0 ∨ cS ≤ 0 →
      calculate_pair_pnl_log eL cL eS cS =
        .error (.invalidPrice "All prices must be positive"))
    ∧ calculate_long_pnl 0 100 =
        .error (.invalidPrice "Entry price must be positive") := by
  refine ⟨fun e c h => ?_, fun e c h => ?_, fun e c h => ?_,
    fun eL cL eS cS h => ?_, ?_⟩
  · simp [calculate_long_pnl, h]
  · simp [calculate_short_pnl, h]
  · simp only [calculate_log_return, if_pos h]
  · have hcond : eL ≤ 0 ∨ eS ≤ 0 ∨ cL ≤ 0 ∨ cS ≤ 0 := by tauto
    simp only [calculate_pair_pnl_log, if_pos hcond]
  · norm_num [calculate_long_pnl]

/-- Witness for C5's amended theorem at concrete inputs. -/
theorem claim5_witness :
    calculate_long_pnl (-1) 5 = .error (.invalidPrice "Entry price must be positive")
    ∧ calculate_log_return 0 5 = .error (.invalidPrice "Prices must be positive")
    ∧ calculate_pair_pnl_log 1 1 0 1 =
        .error (.invalidPrice "All prices must be positive") :=
  ⟨claim5_nonpositive_price_policy.1 (-1) 5 (by norm_num),
   claim5_nonpositive_price_policy.2.2.1 0 5 (Or.inl le_rfl),
   claim5_nonpositive_price_policy.2.2.2.1 1 1 0 1 (Or.inr (Or.inr (Or.inl le_rfl)))⟩

/-- C8 (corrected), refuting the claim as stated: the claim asserts it is
NOT the case that `calculate_long_pnl e c = -calculate_short_pnl e c` for
all positive prices; in the code the identity does hold universally, so the
claim's negative assertion is false. -/
theorem claim8_counterexample :
    ¬ ¬ (∀ e c : ℚ, 0 < e → 0 < c →
      calculate_long_pnl e c = (calculate_short_pnl e c).map fun q => -q) :=
  fun h => h fun e c _ _ => long_pnl_eq_neg_short e c

/-- C8 (amended): `calculate_long_pnl(e,c) = -calculate_short_pnl(e,c)`
holds for ALL inputs (the identity is true, not false), and the concrete
values `calculate_long_pnl 100 110 = 0.10` and
`calculate_short_pnl 100 90 = 0.10` are exact. -/
theorem claim8_long_short_relation :
    (∀ e c : ℚ, calculate_long_pnl e c = (calculate_short_pnl e c).map fun q => -q)
    ∧ calculate_long_pnl 100 110 = .ok (1/10)
    ∧ calculate_short_pnl 100 90 = .ok (1/10) :=
  ⟨long_pnl_eq_neg_short,
   by norm_num [calculate_long_pnl],
   by norm_num [calculate_short_pnl]⟩

/-- C9 (confirmed): for a pair trade, a stored secondary entry price of
exactly 0, or a passed current secondary price of exactly 0, is caught by
the Python truthiness guard and raises the `MissingPriceError` message
("secondary prices required"), never `InvalidPriceError`. -/
theorem claim9_zero_secondary_is_missing (idea : Idea) (c1 : ℚ) (cur2 : Option ℚ)
    (hty : idea.trade_type = TradeType.pair_long_short)
    (h : idea.entry_price_secondary = some 0 ∨ cur2 = some 0) :
    calculate_idea_pnl idea c1 cur2 =
      .error (.missingPrice "Secondary prices required for pair trade P&L") := by
  rcases h with h | h <;>
    simp [calculate_idea_pnl, hty, falsyQOpt, h]

/-- Witness for C9: a pair idea with secondary entry 50 but current
secondary price exactly 0. -/
theorem claim9_witness :
    calculate_idea_pnl samplePairIdea 110 (some 0) =
      .error (.missingPrice "Secondary prices required for pair trade P&L") :=
  claim9_zero_secondary_is_missing samplePairIdea 110 (some 0) rfl (Or.inr rfl)

/-- C10 (confirmed): `add_manual_snapshot` performs no positivity check on
prices; it fails (with the missing-secondary message) exactly when the idea
is a pair trade and `price_secondary` is `None`, and otherwise persists and
returns the snapshot unchanged, for any prices including zero and negative
ones. -/
theorem claim10_add_manual_no_validation (idea : Idea) (ts : DateTimeM)
    (pp : ℚ) (ps : Option ℚ) (note : Option String) (db : List PriceSnapshot) :
    (idea.is_pair = true ∧ ps = none →
      add_manual_snapshot idea ts pp ps note db =
        .error (.missingPrice "Secondary price required for pair trade"))
    ∧ (idea.is_pair = false ∨ ps ≠ none →
      add_manual_snapshot idea ts pp ps note db =
        .ok ({ idea_id := idea.id, timestamp := ts, price_primary := pp
               price_secondary := ps, source := PriceSource.manual, note := note },
             db ++ [{ idea_id := idea.id, timestamp := ts, price_primary := pp
                      price_secondary := ps, source := PriceSource.manual,
                      note := note }])) := by
  constructor
  · rintro ⟨hpair, hnone⟩
    simp [add_manual_snapshot, hpair, hnone]
  · rintro (hnotpair | hsome)
    · simp [add_manual_snapshot, hnotpair]
    · simp [add_manual_snapshot, Option.isNone_iff_eq_none, hsome]

/-- Witness for C10: a pair idea given a manual snapshot with a zero primary
price and a negative secondary price is stored without error. -/
theorem claim10_witness :
    add_manual_snapshot samplePairIdea ⟨3, 0⟩ 0 (some (-3)) none [] =
      .ok ({ idea_id := samplePairIdea.id, timestamp := ⟨3, 0⟩, price_primary := 0
             price_secondary := some (-3), source := PriceSource.manual, note := none },
           [] ++ [{ idea_id := samplePairIdea.id, timestamp := ⟨3, 0⟩, price_primary := 0
                    price_secondary := some (-3), source := PriceSource.manual,
                    note := none }]) :=
  (claim10_add_manual_no_validation samplePairIdea ⟨3, 0⟩ 0 (some (-3)) none []).2
    (Or.inr (by decide))


/-- Numeric bound: `ln(11/10) = 0.09531…`, within `2·10⁻⁵` of `0.09531`,
via the degree-4 Taylor polynomial of `log (1 - x)` at `x = -1/10`. -/
theorem log_11_10_bound : |Real.log (11 / 10) - 9531 / 100000| < (2 : ℝ) / 100000 := by
  have h := @Real.abs_log_sub_add_sum_range_le ((-1 : ℝ) / 10)
    (by rw [abs_lt]; constructor <;> norm_num) 4
  have hs : (∑ i ∈ Finset.range 4, ((-1 : ℝ) / 10) ^ (i + 1) / (i + 1)) =
      -11437 / 120000 := by
    rw [Finset.sum_range_succ, Finset.sum_range_succ, Finset.sum_range_succ,
      Finset.sum_range_succ, Finset.sum_range_zero]
    norm_num
  have h1 : (1 : ℝ) - (-1) / 10 = 11 / 10 := by norm_num
  have h2 : |(-1 : ℝ) / 10| ^ (4 + 1) / (1 - |(-1 : ℝ) / 10|) = 1 / 90000 := by
    rw [abs_of_nonpos (by norm_num : (-1 : ℝ) / 10 ≤ 0)]
    norm_num
  rw [hs, h1, h2] at h
  rw [abs_le] at h
  rw [abs_lt]
  constructor <;> linarith

/-- Numeric bound: `ln(24/25) = -0.04082…`, within `2·10⁻⁵` of `-0.04082`,
via the degree-3 Taylor polynomial of `log (1 - x)` at `x = 1/25`. -/
theorem log_24_25_bound : |Real.log (24 / 25) + 4082 / 100000| < (2 : ℝ) / 100000 := by
  have h := @Real.abs_log_sub_add_sum_range_le ((1 : ℝ) / 25)
    (by rw [abs_lt]; constructor <;> norm_num) 3
  have hs : (∑ i ∈ Finset.range 3, ((1 : ℝ) / 25) ^ (i + 1) / (i + 1)) =
      3827 / 93750 := by
    rw [Finset.sum_range_succ, Finset.sum_range_succ, Finset.sum_range_succ,
      Finset.sum_range_zero]
    norm_num
  have h1 : (1 : ℝ) - 1 / 25 = 24 / 25 := by norm_num
  have h2 : |(1 : ℝ) / 25| ^ (3 + 1) / (1 - |(1 : ℝ) / 25|) = 1 / 375000 := by
    rw [abs_of_nonneg (by norm_num : (0 : ℝ) ≤ 1 / 25)]
    norm_num
  rw [hs, h1, h2] at h
  rw [abs_le] at h
  rw [abs_lt]
  constructor <;> linarith

/-- All-positive prices pass `calculate_pair_pnl_log`'s guard and produce
the log-spread tuple. -/
theorem pair_pnl_log_of_pos (eL cL eS cS : ℚ)
    (heL : 0 < eL) (hcL : 0 < cL) (heS : 0 < eS) (hcS : 0 < cS) :
    calculate_pair_pnl_log eL cL eS cS = .ok
      (Real.log ((cL : ℝ) / (eL : ℝ)) - Real.log ((cS : ℝ) / (eS : ℝ)),
       Real.log ((cL : ℝ) / (eL : ℝ)),
       Real.log ((cS : ℝ) / (eS : ℝ)),
       ((cL : ℝ) / (eL : ℝ)) / ((cS : ℝ) / (eS : ℝ)) - 1) := by
  have hcond : ¬ (eL ≤ 0 ∨ eS ≤ 0 ∨ cL ≤ 0 ∨ cS ≤ 0) := by
    simp only [not_or, not_le]
    exact ⟨heL, heS, hcL, hcS⟩
  rw [calculate_pair_pnl_log, if_neg hcond]

/-- C1 (confirmed): for positive prices, `calculate_pair_pnl_log` returns
`logReturnLong = ln(currentLong/entryLong)`,
`logReturnShort = ln(currentShort/entryShort)`, their difference as
`spreadPnl`, and `simpleSpread = (currentLong/entryLong)/(currentShort/entryShort) − 1`;
at `(100, 110, 50, 48)` the four values are within `10⁻⁴` of
`0.13613`, `0.09531`, `−0.04082` and `0.14583` respectively. -/
theorem claim1_pair_spread_formula :
    (∀ eL cL eS cS : ℚ, 0 < eL → 0 < cL → 0 < eS → 0 < cS →
      calculate_pair_pnl_log eL cL eS cS = .ok
        (Real.log ((cL : ℝ) / (eL : ℝ)) - Real.log ((cS : ℝ) / (eS : ℝ)),
         Real.log ((cL : ℝ) / (eL : ℝ)),
         Real.log ((cS : ℝ) / (eS : ℝ)),
         ((cL : ℝ) / (eL : ℝ)) / ((cS : ℝ) / (eS : ℝ)) - 1))
    ∧ (∃ sp lL lS ss : ℝ,
        calculate_pair_pnl_log 100 110 50 48 = .ok (sp, lL, lS, ss)
        ∧ |sp - 13613 / 100000| < 1 / 10000
        ∧ |lL - 9531 / 100000| < 1 / 10000
        ∧ |lS + 4082 / 100000| < 1 / 10000
        ∧ |ss - 14583 / 100000| < 1 / 10000) := by
  refine ⟨pair_pnl_log_of_pos, ?_⟩
  have heq := pair_pnl_log_of_pos 100 110 50 48
    (by norm_num) (by norm_num) (by norm_num) (by norm_num)
  have hL : ((110 : ℚ) : ℝ) / ((100 : ℚ) : ℝ) = 11 / 10 := by norm_num
  have hS : ((48 : ℚ) : ℝ) / ((50 : ℚ) : ℝ) = 24 / 25 := by norm_num
  rw [hL, hS] at heq
  refine ⟨_, _, _, _, heq, ?_, ?_, ?_, ?_⟩
  · have h1 := log_11_10_bound
    have h2 := log_24_25_bound
    rw [abs_lt] at h1 h2 ⊢
    constructor <;> linarith
  · exact lt_trans log_11_10_bound (by norm_num)
  · exact lt_trans log_24_25_bound (by norm_num)
  · have : (11 : ℝ) / 10 / (24 / 25) - 1 = 7 / 48 := by norm_num
    rw [this, abs_lt]
    constructor <;> norm_num

/-- Witness for C1 at the concrete prices `(100, 110, 50, 48)`. -/
theorem claim1_witness :
    calculate_pair_pnl_log 100 110 50 48 = .ok
      (Real.log (((110 : ℚ) : ℝ) / ((100 : ℚ) : ℝ)) -
        Real.log (((48 : ℚ) : ℝ) / ((50 : ℚ) : ℝ)),
       Real.log (((110 : ℚ) : ℝ) / ((100 : ℚ) : ℝ)),
       Real.log (((48 : ℚ) : ℝ) / ((50 : ℚ) : ℝ)),
       (((110 : ℚ) : ℝ) / ((100 : ℚ) : ℝ)) /
         (((48 : ℚ) : ℝ) / ((50 : ℚ) : ℝ)) - 1) :=
  claim1_pair_spread_formula.1 100 110 50 48
    (by norm_num) (by norm_num) (by norm_num) (by norm_num)


/-- The P&L-valued fields of a `PnLResult` (everything except the echoed
input fields of the response). -/
def PnLResult.fieldsView (r : PnLResult) :
    ℝ × Option ℝ × Option ℝ × Option ℝ × Option ℝ :=
  (r.pnl_percent, r.pnl_absolute, r.pnl_primary_leg, r.pnl_secondary_leg,
   r.simple_spread)

/-- The P&L-valued fields of a `PnLResponse`. -/
def PnLResponse.fieldsView (r : PnLResponse) :
    ℝ × Option ℝ × Option ℝ × Option ℝ × Option ℝ :=
  (r.pnl_percent, r.pnl_absolute, r.pnl_primary_leg, r.pnl_secondary_leg,
   r.simple_spread)

/-- For LONG and SHORT ideas, `calculate_idea_pnl` never reads the secondary
current price. -/
theorem calculate_idea_pnl_nonpair_secondary (idea : Idea) (cp : ℚ)
    (cs cs' : Option ℚ) (h : idea.trade_type ≠ TradeType.pair_long_short) :
    calculate_idea_pnl idea cp cs = calculate_idea_pnl idea cp cs' := by
  cases hty : idea.trade_type with
  | long => simp [calculate_idea_pnl, hty]
  | short => simp [calculate_idea_pnl, hty]
  | pair_long_short => exact absurd hty h

/-- C4 (confirmed): for a pair trade with both secondary prices present
(and all prices positive, per the data-model invariant),
`calculate_idea_pnl` assigns legs by `pair_orientation`, reports
`pnl_percent` as the long-minus-short log spread, and re-maps the leg
returns so that `pnl_primary_leg`/`pnl_secondary_leg` are the log returns
of the primary/secondary ticker under BOTH orientations. -/
theorem claim4_pair_leg_mapping (idea : Idea) (o : PairOrientation)
    (e2 c1 c2 : ℚ)
    (hty : idea.trade_type = TradeType.pair_long_short)
    (ho : idea.pair_orientation = some o)
    (he2 : idea.entry_price_secondary = some e2)
    (hp1 : 0 < idea.entry_price_primary) (hpe2 : 0 < e2)
    (hc1 : 0 < c1) (hc2 : 0 < c2) :
    (calculate_idea_pnl idea c1 (some c2)).map PnLResult.pnl_primary_leg =
      .ok (some (Real.log ((c1 : ℝ) / (idea.entry_price_primary : ℝ))))
    ∧ (calculate_idea_pnl idea c1 (some c2)).map PnLResult.pnl_secondary_leg =
      .ok (some (Real.log ((c2 : ℝ) / (e2 : ℝ))))
    ∧ (calculate_idea_pnl idea c1 (some c2)).map PnLResult.pnl_percent =
      .ok (if o = PairOrientation.long_primary_short_secondary then
            Real.log ((c1 : ℝ) / (idea.entry_price_primary : ℝ)) -
              Real.log ((c2 : ℝ) / (e2 : ℝ))
          else
            Real.log ((c2 : ℝ) / (e2 : ℝ)) -
              Real.log ((c1 : ℝ) / (idea.entry_price_primary : ℝ))) := by
  have hf1 : falsyQOpt (some e2) = false := by
    simp only [falsyQOpt, decide_eq_false_iff_not]
    exact hpe2.ne'
  have hf2 : falsyQOpt (some c2) = false := by
    simp only [falsyQOpt, decide_eq_false_iff_not]
    exact hc2.ne'
  have hpairP := pair_pnl_log_of_pos idea.entry_price_primary c1 e2 c2
    hp1 hc1 hpe2 hc2
  have hpairS := pair_pnl_log_of_pos e2 c2 idea.entry_price_primary c1
    hpe2 hc2 hp1 hc1
  refine ⟨?_, ?_, ?_⟩ <;> cases o <;>
    simp [calculate_idea_pnl, hty, hf1, hf2, ho, he2, hpairP, hpairS,
      Except.map]

/-- Witness for C4: the sample pair idea (LONG_PRIMARY_SHORT_SECONDARY,
entries 100/50) at current prices 110/48. -/
theorem claim4_witness :
    (calculate_idea_pnl samplePairIdea 110 (some 48)).map PnLResult.pnl_primary_leg =
      .ok (some (Real.log ((110 : ℝ) / (samplePairIdea.entry_price_primary : ℝ))))
    ∧ (calculate_idea_pnl samplePairIdea 110 (some 48)).map PnLResult.pnl_secondary_leg =
      .ok (some (Real.log ((48 : ℝ) / ((50 : ℚ) : ℝ))))
    ∧ (calculate_idea_pnl samplePairIdea 110 (some 48)).map PnLResult.pnl_percent =
      .ok (if PairOrientation.long_primary_short_secondary =
            PairOrientation.long_primary_short_secondary then
            Real.log ((110 : ℝ) / (samplePairIdea.entry_price_primary : ℝ)) -
              Real.log ((48 : ℝ) / ((50 : ℚ) : ℝ))
          else
            Real.log ((48 : ℝ) / ((50 : ℚ) : ℝ)) -
              Real.log ((110 : ℝ) / (samplePairIdea.entry_price_primary : ℝ))) := by
  have h := claim4_pair_leg_mapping samplePairIdea
    PairOrientation.long_primary_short_secondary 50 110 48
    rfl rfl rfl (by norm_num [samplePairIdea, sampleFolder]) (by norm_num)
    (by norm_num) (by norm_num)
  simpa using h

/-- C3 (confirmed): for a closed position whose exit prices are set (exit
prices are positive decimals in the data model, hence truthy), the P&L
fields of `get_pnl_response` are computed from the stored exit prices and do
not depend on the passed-in current prices. -/
theorem claim3_closed_uses_exit_prices (idea : Idea) (p : ℚ)
    (hclosed : idea.is_closed = true)
    (hx : idea.exit_price_primary = some p) (hp : p ≠ 0)
    (hsec : truthyQOpt idea.exit_price_secondary = true ∨
      idea.trade_type ≠ TradeType.pair_long_short)
    (c1 : ℚ) (c2 : Option ℚ) (ts : Option DateTimeM) :
    (get_pnl_response idea c1 c2 ts).map PnLResponse.fieldsView =
      (calculate_idea_pnl idea p idea.exit_price_secondary).map
        PnLResult.fieldsView := by
  have hov : (idea.is_closed && truthyQOpt idea.exit_price_primary) = true := by
    rw [hclosed, hx]
    simp [truthyQOpt, hp]
  have hcp : (if idea.is_closed && truthyQOpt idea.exit_price_primary then
      idea.exit_price_primary.getD c1 else c1) = p := by
    rw [hov, if_pos rfl, hx, Option.getD_some]
  have hcseq : calculate_idea_pnl idea p
      (if (idea.is_closed && truthyQOpt idea.exit_price_primary) &&
          truthyQOpt idea.exit_price_secondary then
        idea.exit_price_secondary else c2) =
      calculate_idea_pnl idea p idea.exit_price_secondary := by
    cases hq : truthyQOpt idea.exit_price_secondary with
    | false =>
      rw [Bool.and_false, if_neg (by simp)]
      rcases hsec with htr | hnp
      · rw [htr] at hq
        cases hq
      · exact calculate_idea_pnl_nonpair_secondary idea p c2 _ hnp
    | true =>
      rw [Bool.and_true, hov, if_pos rfl]
  simp only [get_pnl_response]
  rw [hcp, hcseq]
  cases hcalc : calculate_idea_pnl idea p idea.exit_price_secondary <;>
    simp [Except.map, PnLResponse.fieldsView, PnLResult.fieldsView, hcalc]

/-- Witness for C3: the closed LONG idea with exit price 120, called with
unrelated mock current prices. -/
theorem claim3_witness :
    (get_pnl_response sampleClosedLongIdea 7 (some 5) none).map
        PnLResponse.fieldsView =
      (calculate_idea_pnl sampleClosedLongIdea 120
        sampleClosedLongIdea.exit_price_secondary).map PnLResult.fieldsView :=
  claim3_closed_uses_exit_prices sampleClosedLongIdea 120 rfl rfl
    (by norm_num) (Or.inr (by decide)) 7 (some 5) none


/-! ## Backfill lemmas -/

/-- Membership in the existing-dates set. -/
theorem mem_get_existing {db : List PriceSnapshot} {tid : String} {d : Int} :
    d ∈ get_existing_snapshot_dates db tid ↔
      ∃ s_ ∈ db, s_.idea_id = tid ∧ s_.timestamp.day = d := by
  simp only [get_existing_snapshot_dates, List.mem_map, List.mem_filter,
    beq_iff_eq]
  constructor
  · rintro ⟨s_, ⟨hs, hid⟩, hd⟩
    exact ⟨s_, hs, hid, hd⟩
  · rintro ⟨s_, hs, hid, hd⟩
    exact ⟨s_, ⟨hs, hid⟩, hd⟩

/-- Existing dates of an appended store. -/
theorem get_existing_snapshot_dates_append (db l : List PriceSnapshot)
    (tid : String) :
    get_existing_snapshot_dates (db ++ l) tid =
      get_existing_snapshot_dates db tid ++ get_existing_snapshot_dates l tid := by
  simp [get_existing_snapshot_dates, List.filter_append]

/-- A created snapshot carries the idea's id and the end-of-day timestamp of
its date. -/
theorem backfillStep_some_fields (idea : Idea) (ex : List Int)
    (sm : List (Int × ℚ)) (d : Int) (p : ℚ) (snap : PriceSnapshot)
    (h : backfillStep idea ex sm d p = some snap) :
    snap.idea_id = idea.id ∧ snap.timestamp.day = d := by
  unfold backfillStep at h
  by_cases hmem : d ∈ ex
  · rw [if_pos hmem] at h
    exact absurd h (by simp)
  · rw [if_neg hmem] at h
    by_cases hpair : idea.is_pair = true
    · rw [hpair, if_pos rfl] at h
      cases hdg : dictGet sm d with
      | none =>
        rw [hdg] at h
        exact absurd h (by simp)
      | some ps =>
        rw [hdg] at h
        cases h
        exact ⟨rfl, rfl⟩
    · rw [if_neg hpair] at h
      cases h
      exact ⟨rfl, rfl⟩

/-- For a pair trade, a created snapshot always carries the secondary price
found in the secondary map for its date. -/
theorem backfillStep_some_secondary (idea : Idea) (ex : List Int)
    (sm : List (Int × ℚ)) (d : Int) (p : ℚ) (snap : PriceSnapshot)
    (h : backfillStep idea ex sm d p = some snap)
    (hpair : idea.is_pair = true) :
    ∃ ps, dictGet sm d = some ps ∧ snap.price_secondary = some ps := by
  unfold backfillStep at h
  by_cases hmem : d ∈ ex
  · rw [if_pos hmem] at h
    exact absurd h (by simp)
  · rw [if_neg hmem, hpair, if_pos rfl] at h
    cases hdg : dictGet sm d with
    | none =>
      rw [hdg] at h
      exact absurd h (by simp)
    | some ps =>
      rw [hdg] at h
      cases h
      exact ⟨ps, rfl, rfl⟩

/-- The backfill loop skips a date exactly when it is already covered, or
the idea is a pair trade with no secondary price for that date. -/
theorem backfillStep_none_iff (idea : Idea) (ex : List Int)
    (sm : List (Int × ℚ)) (d : Int) (p : ℚ) :
    backfillStep idea ex sm d p = none ↔
      d ∈ ex ∨ (idea.is_pair = true ∧ dictGet sm d = none) := by
  unfold backfillStep
  by_cases hmem : d ∈ ex
  · simp [hmem]
  · rw [if_neg hmem]
    by_cases hpair : idea.is_pair = true
    · rw [hpair, if_pos rfl]
      cases hdg : dictGet sm d with
      | none => simp [hmem, hpair, hdg]
      | some ps => simp [hmem, hpair, hdg]
    · have hfalse : idea.is_pair = false := by
        revert hpair
        cases idea.is_pair <;> simp
      rw [hfalse]
      simp [hmem, mkProviderSnap]

/-- C2 (confirmed): running `backfill_prices_idempotent` a second time with
identical arguments and an unchanged provider creates 0 new snapshots and
leaves the store unchanged. -/
theorem claim2_backfill_idempotent
    (fetchHist : String → Int → Int → List (Int × ℚ)) (today : Int)
    (idea : Idea) (sd ed : Option Int) (db : List PriceSnapshot) :
    (backfill_prices_idempotent fetchHist today idea sd ed
      (backfill_prices_idempotent fetchHist today idea sd ed db).2).1 = 0
    ∧ (backfill_prices_idempotent fetchHist today idea sd ed
      (backfill_prices_idempotent fetchHist today idea sd ed db).2).2 =
      (backfill_prices_idempotent fetchHist today idea sd ed db).2 := by
  by_cases hemp : (fetchHist idea.folder.ticker_primary (sd.getD idea.start_date)
      (ed.getD today)).isEmpty
  · simp [backfill_prices_idempotent, hemp]
  · have hemp' := eq_false_of_ne_true hemp
    have hnil : backfillCreated fetchHist today idea sd ed
        (db ++ backfillCreated fetchHist today idea sd ed db) = [] := by
      rw [backfillCreated, List.filterMap_eq_nil_iff]
      rintro ⟨d, p⟩ hdp
      rw [backfillStep_none_iff]
      cases hstep : backfillStep idea (get_existing_snapshot_dates db idea.id)
          (secondarySeries fetchHist idea (sd.getD idea.start_date)
            (ed.getD today)) d p with
      | some snap =>
        left
        rw [get_existing_snapshot_dates_append, List.mem_append]
        right
        rw [mem_get_existing]
        obtain ⟨hid, hday⟩ :=
          backfillStep_some_fields idea _ _ d p snap hstep
        exact ⟨snap, List.mem_filterMap.mpr ⟨(d, p), hdp, hstep⟩, hid, hday⟩
      | none =>
        rcases (backfillStep_none_iff idea _ _ d p).mp hstep with hmem | hpn
        · left
          rw [get_existing_snapshot_dates_append, List.mem_append]
          exact Or.inl hmem
        · right
          exact hpn
    simp only [backfill_prices_idempotent, hemp', Bool.false_eq_true,
      if_false, hnil]
    simp

/-- C7 (confirmed): for a pair trade, every snapshot the backfill adds
carries a secondary price, and no snapshot is created for a date that the
secondary series does not cover. -/
theorem claim7_pair_backfill_no_one_leg
    (fetchHist : String → Int → Int → List (Int × ℚ)) (today : Int)
    (idea : Idea) (sd ed : Option Int) (db : List PriceSnapshot)
    (hpair : idea.trade_type = TradeType.pair_long_short) :
    (∀ s_ ∈ (backfill_prices_idempotent fetchHist today idea sd ed db).2,
        s_ ∈ db ∨ s_.price_secondary ≠ none)
    ∧ (∀ d : Int,
        dictGet (secondarySeries fetchHist idea (sd.getD idea.start_date)
          (ed.getD today)) d = none →
        ∀ s_ ∈ (backfill_prices_idempotent fetchHist today idea sd ed db).2,
          s_ ∉ db → s_.timestamp.day ≠ d) := by
  have hpairB : idea.is_pair = true := by
    simp [Idea.is_pair, hpair]
  by_cases hemp : (fetchHist idea.folder.ticker_primary (sd.getD idea.start_date)
      (ed.getD today)).isEmpty
  · constructor
    · intro s_ hs
      simp only [backfill_prices_idempotent, hemp, if_pos] at hs
      exact Or.inl hs
    · intro d _ s_ hs hnot
      simp only [backfill_prices_idempotent, hemp, if_pos] at hs
      exact absurd hs hnot
  · have hemp' := eq_false_of_ne_true hemp
    have hmem2 : ∀ s_ ∈ (backfill_prices_idempotent fetchHist today idea sd ed db).2,
        s_ ∈ db ∨ s_ ∈ backfillCreated fetchHist today idea sd ed db := by
      intro s_ hs
      simp only [backfill_prices_idempotent, hemp', Bool.false_eq_true,
        if_false] at hs
      exact List.mem_append.mp hs
    constructor
    · intro s_ hs
      rcases hmem2 s_ hs with h | h
      · exact Or.inl h
      · right
        rw [backfillCreated] at h
        obtain ⟨dp, _, hstep⟩ := List.mem_filterMap.mp h
        obtain ⟨ps, _, hsec⟩ :=
          backfillStep_some_secondary idea _ _ dp.1 dp.2 s_ hstep hpairB
        simp [hsec]
    · intro d hdg s_ hs hnotdb hday2
      rcases hmem2 s_ hs with h | h
      · exact absurd h hnotdb
      · rw [backfillCreated] at h
        obtain ⟨dp, _, hstep⟩ := List.mem_filterMap.mp h
        obtain ⟨_, hday⟩ :=
          backfillStep_some_fields idea _ _ dp.1 dp.2 s_ hstep
        obtain ⟨ps, hdg2, _⟩ :=
          backfillStep_some_secondary idea _ _ dp.1 dp.2 s_ hstep hpairB
        have hdd : dp.1 = d := by
          rw [← hday, hday2]
        rw [hdd, hdg] at hdg2
        cases hdg2

/-- A concrete provider: the primary ticker has prices on days 1 and 2, the
secondary ticker only on day 1. -/
def sampleFetchHist : String → Int → Int → List (Int × ℚ) :=
  fun t _ _ =>
    if t = "AAA" then [(1, 10), (2, 11)]
    else if t = "BBB" then [(1, 20)] else []

/-- Witness for C7: with the sample provider (secondary series missing day
2), no snapshot with day 2 is created for the sample pair idea. -/
theorem claim7_witness :
    (mkProviderSnap samplePairIdea.id 1 10 (some 20)).timestamp.day ≠ 2 :=
  (claim7_pair_backfill_no_one_leg sampleFetchHist 5 samplePairIdea
      none none [] rfl).2 2 (by decide)
    (mkProviderSnap samplePairIdea.id 1 10 (some 20)) (by decide) (by decide)


/-! ## History lemmas -/

/-- The append-on-success loop of `get_pnl_history` is a `filterMap`. -/
theorem foldl_historyAppendStep_eq (idea : Idea) :
    ∀ (l : List PriceSnapshot) (acc : List PnLHistoryPoint),
      l.foldl (historyAppendStep idea) acc = acc ++ l.filterMap (pointOf idea) := by
  intro l
  induction l with
  | nil =>
    intro acc
    simp
  | cons a t ih =>
    intro acc
    simp only [List.foldl_cons, List.filterMap_cons]
    cases h : pointOf idea a with
    | none =>
      simp only [historyAppendStep, h]
      rw [ih]
    | some pt =>
      simp only [historyAppendStep, h]
      rw [ih]
      simp

/-- The history produced by `get_pnl_history` is the timestamp-sorted
snapshot list filtered through `pointOf`. -/
theorem get_pnl_history_history_eq (idea : Idea)
    (snapshots : List PriceSnapshot) :
    (get_pnl_history idea snapshots).history =
      (snapshots.mergeSort fun a b =>
        DateTimeM.le a.timestamp b.timestamp).filterMap (pointOf idea) := by
  simp only [get_pnl_history]
  rw [foldl_historyAppendStep_eq]
  simp

/-- A successfully computed history point copies the snapshot's timestamp
and prices verbatim. -/
theorem pointOf_some_fields (idea : Idea) (s_ : PriceSnapshot)
    (pt : PnLHistoryPoint) (h : pointOf idea s_ = some pt) :
    pt.timestamp = s_.timestamp ∧ pt.price_primary = s_.price_primary ∧
      pt.price_secondary = s_.price_secondary := by
  unfold pointOf at h
  cases hc : calculate_idea_pnl idea s_.price_primary s_.price_secondary with
  | ok r =>
    rw [hc] at h
    cases h
    exact ⟨rfl, rfl, rfl⟩
  | error e =>
    rw [hc] at h
    cases h

/-- For a pair trade, a snapshot with a non-positive primary price, or with
an absent, zero or negative secondary price, makes `calculate_idea_pnl`
raise, so `pointOf` skips it. -/
theorem pair_pointOf_none_of_bad (idea : Idea) (s_ : PriceSnapshot)
    (hty : idea.trade_type = TradeType.pair_long_short)
    (hbad : s_.price_primary ≤ 0 ∨ s_.price_secondary = none ∨
      ∃ q, s_.price_secondary = some q ∧ q ≤ 0) :
    pointOf idea s_ = none := by
  unfold pointOf
  suffices hc : ∃ err, calculate_idea_pnl idea s_.price_primary
      s_.price_secondary = .error err by
    obtain ⟨err, herr⟩ := hc
    rw [herr]
  simp only [calculate_idea_pnl, hty]
  by_cases hf : (falsyQOpt idea.entry_price_secondary ||
      falsyQOpt s_.price_secondary) = true
  · rw [if_pos hf]
    exact ⟨_, rfl⟩
  · rw [if_neg hf]
    have hf2 : falsyQOpt s_.price_secondary = false := by
      cases hx : falsyQOpt s_.price_secondary
      · rfl
      · exact absurd (by rw [hx, Bool.or_true]) hf
    obtain ⟨q, hq, hqne⟩ : ∃ q, s_.price_secondary = some q ∧ q ≠ 0 := by
      cases hps : s_.price_secondary with
      | none =>
        rw [hps] at hf2
        exact absurd hf2 (by simp [falsyQOpt])
      | some q =>
        rw [hps] at hf2
        simp only [falsyQOpt, decide_eq_false_iff_not] at hf2
        exact ⟨q, rfl, hf2⟩
    have hqle : s_.price_primary ≤ 0 ∨ q ≤ 0 := by
      rcases hbad with h | h | ⟨q2, hq2, hle2⟩
      · exact Or.inl h
      · rw [h] at hq
        cases hq
      · rw [hq2] at hq
        cases hq
        exact Or.inr hle2
    have hplog : calculate_pair_pnl_log idea.entry_price_primary
        s_.price_primary (idea.entry_price_secondary.getD 0)
        (s_.price_secondary.getD 0) =
        .error (.invalidPrice "All prices must be positive") := by
      rw [calculate_pair_pnl_log, if_pos]
      rw [hq, Option.getD_some]
      rcases hqle with h | h
      · exact Or.inr (Or.inr (Or.inl h))
      · exact Or.inr (Or.inr (Or.inr h))
    have hplog2 : calculate_pair_pnl_log (idea.entry_price_secondary.getD 0)
        (s_.price_secondary.getD 0) idea.entry_price_primary
        s_.price_primary =
        .error (.invalidPrice "All prices must be positive") := by
      rw [calculate_pair_pnl_log, if_pos]
      rw [hq, Option.getD_some]
      rcases hqle with h | h
      · exact Or.inr (Or.inr (Or.inr h))
      · exact Or.inr (Or.inr (Or.inl h))
    by_cases ho : idea.pair_orientation =
        some PairOrientation.long_primary_short_secondary
    · rw [if_pos ho]
      exact ⟨PnLErr.invalidPrice "All prices must be positive",
        by simp [hplog, Except.map]⟩
    · rw [if_neg ho]
      exact ⟨PnLErr.invalidPrice "All prices must be positive",
        by simp [hplog2, Except.map]⟩

/-- C6 (amended) …: `get_pnl_history` returns exactly the
timestamp-ascending sorted snapshots mapped through the per-snapshot
computation, with raising observations excluded; surviving points copy the
snapshot data unaffected; and for a PAIR position any snapshot containing a
zero/negative (or absent secondary) price is excluded. -/
theorem claim6_history_sorted_skip_policy (idea : Idea)
    (snapshots : List PriceSnapshot) :
    (get_pnl_history idea snapshots).history =
      (snapshots.mergeSort fun a b =>
        DateTimeM.le a.timestamp b.timestamp).filterMap (pointOf idea)
    ∧ (get_pnl_history idea snapshots).history.Pairwise
        (fun a b => DateTimeM.le a.timestamp b.timestamp = true)
    ∧ (∀ s_ pt, pointOf idea s_ = some pt →
        pt.timestamp = s_.timestamp ∧ pt.price_primary = s_.price_primary ∧
          pt.price_secondary = s_.price_secondary)
    ∧ (idea.trade_type = TradeType.pair_long_short →
        ∀ s_ : PriceSnapshot,
          s_.price_primary ≤ 0 ∨ s_.price_secondary = none ∨
            (∃ q, s_.price_secondary = some q ∧ q ≤ 0) →
          pointOf idea s_ = none) := by
  refine ⟨get_pnl_history_history_eq idea snapshots, ?_,
    pointOf_some_fields idea, fun hty s_ hbad =>
      pair_pointOf_none_of_bad idea s_ hty hbad⟩
  rw [get_pnl_history_history_eq idea snapshots]
  have htrans : ∀ a b c : PriceSnapshot,
      DateTimeM.le a.timestamp b.timestamp →
      DateTimeM.le b.timestamp c.timestamp →
      DateTimeM.le a.timestamp c.timestamp := by
    intro a b c hab hbc
    simp only [DateTimeM.le, decide_eq_true_eq] at hab hbc ⊢
    omega
  have htotal : ∀ a b : PriceSnapshot,
      DateTimeM.le a.timestamp b.timestamp ||
        DateTimeM.le b.timestamp a.timestamp := by
    intro a b
    simp only [DateTimeM.le, Bool.or_eq_true, decide_eq_true_eq]
    omega
  have hsorted := List.sorted_mergeSort htrans htotal snapshots
  exact hsorted.filterMap (pointOf idea) fun a a' hle pt hpt pt' hpt' => by
    obtain ⟨hts, -, -⟩ := pointOf_some_fields idea a pt (Option.mem_def.mp hpt)
    obtain ⟨hts', -, -⟩ := pointOf_some_fields idea a' pt' (Option.mem_def.mp hpt')
    rw [hts, hts']
    exact hle

/-- Witness for C6's amended theorem: for the sample pair idea, a snapshot
with a negative primary price is skipped. -/
theorem claim6_witness :
    pointOf samplePairIdea
      { idea_id := "pair-1", timestamp := ⟨1, 0⟩, price_primary := -1,
        price_secondary := some 48, source := PriceSource.manual,
        note := none } = none :=
  (claim6_history_sorted_skip_policy samplePairIdea []).2.2.2 rfl
    { idea_id := "pair-1", timestamp := ⟨1, 0⟩, price_primary := -1,
      price_secondary := some 48, source := PriceSource.manual, note := none }
    (Or.inl (by decide))

/-- A manual snapshot with a negative primary price. -/
def sampleNegSnap : PriceSnapshot :=
  { idea_id := "long-1", timestamp := ⟨1, 0⟩, price_primary := -5,
    price_secondary := none, source := PriceSource.manual, note := none }

/-- C6 (corrected), counterexample to the claim as stated: for a LONG idea
the current price is not validated, so an observation with price −5 is NOT
excluded — the history keeps it (with P&L −105%). -/
theorem claim6_counterexample :
    (get_pnl_history sampleLongIdea [sampleNegSnap]).history.length = 1 := by
  have hlong : calculate_long_pnl (100 : ℚ) (-5) = .ok (-21/20) := by
    norm_num [calculate_long_pnl]
  have hcalc : calculate_idea_pnl sampleLongIdea (-5) none =
      .ok { pnl_percent := ((-21/20 : ℚ) : ℝ), pnl_absolute := none,
            pnl_primary_leg := none, pnl_secondary_leg := none,
            simple_spread := none } := by
    simp [calculate_idea_pnl, sampleLongIdea, hlong, Except.map]
  have hpt : pointOf sampleLongIdea sampleNegSnap =
      some { timestamp := ⟨1, 0⟩, price_primary := -5, price_secondary := none,
             pnl_percent := ((-21/20 : ℚ) : ℝ), pnl_primary_leg := none,
             pnl_secondary_leg := none } := by
    simp [pointOf, sampleNegSnap, hcalc]
  rw [get_pnl_history_history_eq, List.mergeSort_singleton]
  simp [hpt]

end RMS
